import Mathlib

/-!
Verification of the structured-extraction pipeline of `app.py`
(`MedicalReportScanner`): response normalization, schema validation,
status classification, heuristic fallback extraction, the two
retry orchestrators, and the PDF text-extraction front end.

Python values flowing through the pipeline (results of `json.loads`,
nested dicts/lists/strings/numbers) are modelled by the inductive type
`JVal`.  Numbers are modelled as exact rationals; Python `float`
rounding is not modelled (all thresholds and test inputs in the claims
are short decimals).  Python dicts are modelled as ordered key-value
lists (insertion order, first occurrence wins on lookup), matching
CPython semantics for dicts without duplicate keys.  Python exceptions
are modelled with `Except Unit` / `Option`.  String operations are
modelled on `List Char` at ASCII scope (the inputs in the source and
claims are ASCII except for the mojibake characters in the range
pattern, which are carried over literally).
-/

/-- A Python/JSON value. -/
inductive JVal where
  | null
  | bool (b : Bool)
  | num (q : ℚ)
  | str (s : String)
  | arr (xs : List JVal)
  | obj (kvs : List (String × JVal))

/-- First value bound to key `k` (Python dict lookup). -/
def lookupKey (kvs : List (String × JVal)) (k : String) : Option JVal :=
  match kvs with
  | [] => none
  | p :: rest => if p.1 = k then some p.2 else lookupKey rest k

/-- Python dict assignment `d[k] = v`: replace in place if the key is
present (keeping its position), else append. -/
def setKey (kvs : List (String × JVal)) (k : String) (v : JVal) :
    List (String × JVal) :=
  if kvs.any (fun p => p.1 = k) then
    kvs.map (fun p => if p.1 = k then (k, v) else p)
  else kvs ++ [(k, v)]

/-- The whitespace set of Python `str.strip` and of `\s` in `re`
(ASCII scope). -/
def pyIsSpace (c : Char) : Bool :=
  c = ' ' || c = '\t' || c = '\n' || c = '\r' || c = '\x0b' || c = '\x0c'

/-- Whether `l` starts with `pre` (helper `listStartsWith pre l`). -/
def listStartsWith : List Char → List Char → Bool
  | [], _ => true
  | _ :: _, [] => false
  | a :: as, b :: bs => a = b && listStartsWith as bs

/-- Python substring containment `needle in hay`. -/
def listHasSub (needle : List Char) : List Char → Bool
  | [] => needle.isEmpty
  | c :: rest => listStartsWith needle (c :: rest) || listHasSub needle rest

/-- Python `hay.find(needle)` (character index of first occurrence),
`none` when absent. -/
def firstIdxOf (needle : List Char) : List Char → Option Nat
  | [] => if needle.isEmpty then some 0 else none
  | c :: rest =>
    if listStartsWith needle (c :: rest) then some 0
    else (firstIdxOf needle rest).map (· + 1)

/-- Python `hay.rfind(needle)` (character index of last occurrence),
`none` when absent. -/
def lastIdxOf (needle : List Char) : List Char → Option Nat
  | [] => if needle.isEmpty then some 0 else none
  | c :: rest =>
    match lastIdxOf needle rest with
    | some i => some (i + 1)
    | none => if listStartsWith needle (c :: rest) then some 0 else none

/-- Python `str.strip()`. -/
def pyStripChars (cs : List Char) : List Char :=
  ((cs.dropWhile pyIsSpace).reverse.dropWhile pyIsSpace).reverse

/-- Python `str.strip()` on `String`. -/
def pyStrip (s : String) : String := String.mk (pyStripChars s.toList)

/-- Python `text.split('\n')` (keeps empty pieces). -/
def splitLines (cs : List Char) : List (List Char) :=
  match cs with
  | [] => [[]]
  | c :: rest =>
    if c = '\n' then [] :: splitLines rest
    else
      match splitLines rest with
      | [] => [[c]]
      | l :: ls => (c :: l) :: ls

/-- Python `str.lower()` (ASCII scope, as in `Char.toLower`). -/
def pyLower (s : String) : String := String.mk (s.toList.map Char.toLower)

/-!  A small backtracking regular-expression engine covering exactly the
constructs used by the patterns in `app.py`: literals, character
classes with greedy `*`/`+`, ordered alternation, greedy `?`, and
numbered capture groups.  The matcher explores alternatives in the same
order as CPython `re` (greedy, leftmost), so `reSearch` agrees with
`re.search` on these patterns. -/

/-- Regular expressions as used in the source's patterns. -/
inductive RE where
  | lit (cs : List Char)
  | cls (p : Char → Bool)
  | star (p : Char → Bool)
  | plus (p : Char → Bool)
  | seq (a b : RE)
  | alt (a b : RE)
  | opt (r : RE)
  | grp (n : Nat) (r : RE)

/-- Captured groups: group number paired with the captured characters. -/
abbrev Caps : Type := List (Nat × List Char)

/-- Backtracking helper for greedy `*` over a class: try consuming
`n, n-1, …, 0` characters, first success wins. -/
def tryConsume (input : List Char) (caps : Caps)
    (k : List Char → Caps → Option Caps) : Nat → Option Caps
  | 0 => k input caps
  | n + 1 =>
    match k (input.drop (n + 1)) caps with
    | some r => some r
    | none => tryConsume input caps k n

/-- Backtracking helper for greedy `+` over a class: try consuming
`n, n-1, …, 1` characters, first success wins. -/
def tryConsumePos (input : List Char) (caps : Caps)
    (k : List Char → Caps → Option Caps) : Nat → Option Caps
  | 0 => none
  | n + 1 =>
    match k (input.drop (n + 1)) caps with
    | some r => some r
    | none => tryConsumePos input caps k n

/-- Match `r` at the start of `input` in continuation-passing style;
`k` receives the remaining input and the captures so far.  Alternatives
are explored greedy-first / left-first, as CPython `re` does. -/
def matchRE : RE → List Char → Caps →
    (List Char → Caps → Option Caps) → Option Caps
  | .lit cs, input, caps, k =>
    if listStartsWith cs input then k (input.drop cs.length) caps else none
  | .cls p, input, caps, k =>
    match input with
    | [] => none
    | c :: rest => if p c then k rest caps else none
  | .star p, input, caps, k =>
    tryConsume input caps k (input.takeWhile p).length
  | .plus p, input, caps, k =>
    tryConsumePos input caps k (input.takeWhile p).length
  | .seq a b, input, caps, k =>
    matchRE a input caps (fun rest caps2 => matchRE b rest caps2 k)
  | .alt a b, input, caps, k =>
    match matchRE a input caps k with
    | some r => some r
    | none => matchRE b input caps k
  | .opt r, input, caps, k =>
    match matchRE r input caps k with
    | some r2 => some r2
    | none => k input caps
  | .grp n r, input, caps, k =>
    matchRE r input caps
      (fun rest caps2 =>
        k rest (caps2 ++ [(n, input.take (input.length - rest.length))]))

/-- Python `re.search`: try each start position left to right, return
the captures of the first match. -/
def reSearch (r : RE) : List Char → Option Caps
  | [] => matchRE r [] [] (fun _ caps => some caps)
  | c :: rest =>
    match matchRE r (c :: rest) [] (fun _ caps => some caps) with
    | some caps => some caps
    | none => reSearch r rest

/-- Python `match.group(n)`: the capture of group `n`, `none` when the group
did not participate in the match. -/
def getCap (caps : Caps) (n : Nat) : Option (List Char) :=
  match caps with
  | [] => none
  | p :: rest => if p.1 = n then some p.2 else getCap rest n

/-- Fold a list of regex pieces into their concatenation. -/
def seqL (rs : List RE) : RE := rs.foldr RE.seq (.lit [])

/-- Python `re.findall` for a bare character-class-plus pattern:
maximal runs of class characters, left to right (helper carrying the
current reversed run). -/
def findRunsGo (p : Char → Bool) : List Char → List Char → List (List Char)
  | cur, [] => if cur.isEmpty then [] else [cur.reverse]
  | cur, c :: rest =>
    if p c then findRunsGo p (c :: cur) rest
    else if cur.isEmpty then findRunsGo p [] rest
    else cur.reverse :: findRunsGo p [] rest

/-- Python `re.findall(r'[class]+', s)`. -/
def findRuns (p : Char → Bool) (cs : List Char) : List (List Char) :=
  findRunsGo p [] cs

/-!  `clean_json_response` (app.py lines 156-179). -/

/-- Translation of `MedicalReportScanner.clean_json_response`: strip markdown fences,
trim, and fall back to the first-`{`-to-last-`}` span. -/
def clean_json_response (t : String) : String :=
  let cs0 := t.toList
  let fence := "```".toList
  let fenceJson := "```json".toList
  let cs1 :=
    if listHasSub fenceJson cs0 then
      match firstIdxOf fenceJson cs0, lastIdxOf fence cs0 with
      | some f, some e =>
        let s := f + 7
        if s < e then (cs0.drop s).take (e - s) else cs0
      | _, _ => cs0
    else if listHasSub fence cs0 then
      match firstIdxOf fence cs0, lastIdxOf fence cs0 with
      | some f, some e =>
        let s := f + 3
        if s < e then (cs0.drop s).take (e - s) else cs0
      | _, _ => cs0
    else cs0
  let cs2 := pyStripChars cs1
  let cs3 :=
    if cs2.head? = some '{' then cs2
    else
      match firstIdxOf ['{'] cs2, lastIdxOf ['}'] cs2 with
      | some i, some j => if i < j then (cs2.drop i).take (j + 1 - i) else cs2
      | _, _ => cs2
  String.mk cs3

/-!  Schema validators (app.py lines 316-336 and 474-478).  Python
`key in data` and `data[key]` raise `TypeError` on unsupported
containers; that is the `.error` case. -/

/-- Python `key in data` for the value kinds `json.loads` can return. -/
def pyContains (d : JVal) (k : String) : Except Unit Bool :=
  match d with
  | .obj kvs => .ok (kvs.any (fun p => p.1 = k))
  | .arr xs => .ok (xs.any (fun x => match x with | .str s => s = k | _ => false))
  | .str s => .ok (listHasSub k.toList s.toList)
  | _ => .error ()

/-- Python `all(key in data for key in keys)` (lazy, left to right). -/
def pyAll (d : JVal) : List String → Except Unit Bool
  | [] => .ok true
  | k :: ks =>
    match pyContains d k with
    | .error e => .error e
    | .ok true => pyAll d ks
    | .ok false => .ok false

/-- Python `data[k]` for a string key (`KeyError`/`TypeError` are the
`.error` case). -/
def pyIndex (d : JVal) (k : String) : Except Unit JVal :=
  match d with
  | .obj kvs =>
    match lookupKey kvs k with
    | some v => .ok v
    | none => .error ()
  | _ => .error ()

/-- Python `isinstance(v, dict)`. -/
def isDict : JVal → Bool
  | .obj _ => true
  | _ => false

/-- Python `isinstance(v, list)`. -/
def isList : JVal → Bool
  | .arr _ => true
  | _ => false

/-- The `required_keys` of `validate_parsed_data`. -/
def requiredLabKeys : List String :=
  ["patient_info", "test_categories", "abnormal_findings"]

/-- The `required_keys` of `validate_diagnosis_data`. -/
def requiredDiagKeys : List String :=
  ["risk_assessment", "potential_conditions", "recommendations",
   "follow_up_tests", "red_flags", "summary"]

/-- Translation of `MedicalReportScanner.validate_parsed_data`. -/
def validate_parsed_data (d : JVal) : Except Unit Bool :=
  match pyAll d requiredLabKeys with
  | .error e => .error e
  | .ok false => .ok false
  | .ok true =>
    match pyIndex d "patient_info" with
    | .error e => .error e
    | .ok p =>
      if !(isDict p) then .ok false
      else
        match pyIndex d "test_categories" with
        | .error e => .error e
        | .ok tc =>
          if !(isList tc) then .ok false
          else
            match pyIndex d "abnormal_findings" with
            | .error e => .error e
            | .ok ab => if !(isList ab) then .ok false else .ok true

/-- Translation of `MedicalReportScanner.validate_diagnosis_data`. -/
def validate_diagnosis_data (d : JVal) : Except Unit Bool :=
  pyAll d requiredDiagKeys

/-!  `enhance_test_status` (app.py lines 261-314). -/

/-- Rendering of a number by Python `str`.  CPython distinguishes int
and float and uses shortest-roundtrip float formatting; this model
renders integral rationals like ints and others as fractions.  No
claim depends on this rendering: it is only reached through `str()` of
a non-string, non-numeric `value` field, and the theorems about that
path hold for every rendering. -/
def numStr (q : ℚ) : String :=
  if q.den = 1 then toString q.num else toString q.num ++ "/" ++ toString q.den

mutual

/-- Python `repr` of a value (scope of the model: quote style and
escaping inside nested strings are simplified). -/
def pyRepr : JVal → String
  | .null => "None"
  | .bool true => "True"
  | .bool false => "False"
  | .num q => numStr q
  | .str s => "'" ++ s ++ "'"
  | .arr xs => "[" ++ pyReprJoin xs ++ "]"
  | .obj kvs => "\x7b" ++ pyReprJoinKV kvs ++ "\x7d"

/-- Comma-joined `repr`s of list elements. -/
def pyReprJoin : List JVal → String
  | [] => ""
  | [x] => pyRepr x
  | x :: y :: rest => pyRepr x ++ ", " ++ pyReprJoin (y :: rest)

/-- Comma-joined `repr`s of dict items. -/
def pyReprJoinKV : List (String × JVal) → String
  | [] => ""
  | [(k, v)] => "'" ++ k ++ "': " ++ pyRepr v
  | (k, v) :: y :: rest =>
    "'" ++ k ++ "': " ++ pyRepr v ++ ", " ++ pyReprJoinKV (y :: rest)

end

/-- Python `str(value)`. -/
def pyStrOf (v : JVal) : String :=
  match v with
  | .str s => s
  | v => pyRepr v

/-- The character class `[\d.]` of the value-extraction pattern. -/
def digitDotP (c : Char) : Bool := c.isDigit || c = '.'

/-- Python `float()` on a token made of digits and dots: accepted iff
it has at most one dot and at least one digit. -/
def pyFloatTok (cs : List Char) : Option ℚ :=
  if 2 ≤ (cs.filter (fun c => c = '.')).length || !(cs.any Char.isDigit) then
    none
  else
    let intPart := cs.takeWhile (fun c => c ≠ '.')
    let fracPart := (cs.dropWhile (fun c => c ≠ '.')).drop 1
    some ((intPart.foldl (fun a c => a * 10 + (c.toNat - 48)) 0 : ℚ) +
      (fracPart.foldl (fun a c => a * 10 + (c.toNat - 48)) 0 : ℚ) /
        (10 ^ fracPart.length))

/-- The numeric-value extraction of `enhance_test_status`: use the
value directly if numeric (Python `bool` is an `int` instance), else
take the first `[\d.]+` token of its string form; `none` covers both
"no number found" and the caught `ValueError` from `float`. -/
def extractNum (value : JVal) : Option ℚ :=
  match value with
  | .num q => some q
  | .bool b => some (if b then 1 else 0)
  | v =>
    match findRuns digitDotP (pyStrOf v).toList with
    | [] => none
    | tok :: _ => pyFloatTok tok

/-- Case-insensitive-ready substring test `sub in s` (the name is
already lowercased by the caller, as in the source). -/
def hasSub (s sub : String) : Bool := listHasSub sub.toList s.toList

/-- The keyword-rule chain of `enhance_test_status` applied to one
test dict with lowercased name `nameL` and numeric value `v`. -/
def applyRules (kvs : List (String × JVal)) (nameL : String) (v : ℚ) :
    List (String × JVal) :=
  if hasSub nameL "hba1c" || hasSub nameL "glycosylated hemoglobin" then
    if 6.5 ≤ v then
      setKey (setKey kvs "status" (.str "high")) "clinical_significance"
        (.str "Suggests diabetes")
    else if 5.7 ≤ v then
      setKey (setKey kvs "status" (.str "borderline")) "clinical_significance"
        (.str "Prediabetic range")
    else setKey kvs "status" (.str "normal")
  else if hasSub nameL "glucose" && hasSub nameL "fasting" then
    if 126 ≤ v then
      setKey (setKey kvs "status" (.str "high")) "clinical_significance"
        (.str "Diabetic range")
    else if 100 ≤ v then
      setKey (setKey kvs "status" (.str "borderline")) "clinical_significance"
        (.str "Impaired fasting glucose")
    else setKey kvs "status" (.str "normal")
  else if hasSub nameL "cholesterol" && hasSub nameL "total" then
    if 240 ≤ v then
      setKey (setKey kvs "status" (.str "high")) "clinical_significance"
        (.str "High cardiovascular risk")
    else if 200 ≤ v then
      setKey (setKey kvs "status" (.str "borderline")) "clinical_significance"
        (.str "Borderline high")
    else setKey kvs "status" (.str "normal")
  else kvs

/-- One iteration of the inner loop of `enhance_test_status`.
`test.get('test_name', '').lower()` raises (`.error`) when the bound
name is not a string — this happens outside the `try` block.  The
`try`/`except (ValueError, TypeError)` around the numeric work maps to
the `none` case of `extractNum`, which leaves the test untouched. -/
def enhanceTest (t : JVal) : Except Unit JVal :=
  match t with
  | .obj kvs =>
    match (lookupKey kvs "test_name").getD (.str "") with
    | .str nm =>
      let nameL := pyLower nm
      let valueV := (lookupKey kvs "value").getD (.str "")
      match extractNum valueV with
      | none => .ok (.obj kvs)
      | some v => .ok (.obj (applyRules kvs nameL v))
    | _ => .error ()
  | _ => .error ()

/-- Sequential loop over list elements, stopping at the first raised
exception (the shape of the `for` loops of `enhance_test_status`). -/
def mapExcept (f : JVal → Except Unit JVal) : List JVal → Except Unit (List JVal)
  | [] => .ok []
  | x :: xs =>
    match f x with
    | .error e => .error e
    | .ok y =>
      match mapExcept f xs with
      | .error e => .error e
      | .ok ys => .ok (y :: ys)

/-- One iteration of the outer loop of `enhance_test_status` over a
category.  Iterating a non-list `tests` value follows Python: an empty
string or empty dict iterates zero times (no effect), a non-empty one
yields strings on which `.get` raises, and numbers are not iterable. -/
def enhanceCategory (cat : JVal) : Except Unit JVal :=
  match cat with
  | .obj kvs =>
    match lookupKey kvs "tests" with
    | none => .ok (.obj kvs)
    | some (.arr xs) =>
      match mapExcept enhanceTest xs with
      | .error e => .error e
      | .ok xs2 => .ok (.obj (setKey kvs "tests" (.arr xs2)))
    | some (.str s) => if s.isEmpty then .ok (.obj kvs) else .error ()
    | some (.obj kvs2) => if kvs2.isEmpty then .ok (.obj kvs) else .error ()
    | some _ => .error ()
  | _ => .error ()

/-- Translation of `MedicalReportScanner.enhance_test_status`.  In-place mutation of
the nested dicts is modelled by rebuilding the record with the
`test_categories` value mapped. -/
def enhance_test_status (d : JVal) : Except Unit JVal :=
  match d with
  | .obj kvs =>
    match lookupKey kvs "test_categories" with
    | none => .ok (.obj kvs)
    | some (.arr cats) =>
      match mapExcept enhanceCategory cats with
      | .error e => .error e
      | .ok cats2 => .ok (.obj (setKey kvs "test_categories" (.arr cats2)))
    | some (.str s) => if s.isEmpty then .ok (.obj kvs) else .error ()
    | some (.obj kvs2) => if kvs2.isEmpty then .ok (.obj kvs) else .error ()
    | some _ => .error ()
  | _ => .error ()

/-!  `create_fallback_structure` (app.py lines 338-395). -/

/-- The character class `[A-Za-z\s]` (test/patient name pieces). -/
def nameClassP (c : Char) : Bool := c.isAlpha || pyIsSpace c

/-- The character class `[A-Za-z/%]` (units). -/
def unitClassP (c : Char) : Bool := c.isAlpha || c = '/' || c = '%'

/-- The character class `[0-9.-]` (range endpoints). -/
def rangeClassP (c : Char) : Bool := c.isDigit || c = '.' || c = '-'

/-- The range-separator class of the source.  The source file contains
the mojibake bytes of a double-encoded en dash, so the literal class is
`[-â€“]`; it is carried over character for character. -/
def dashClassP (c : Char) : Bool := c = '-' || c = 'â' || c = '€' || c = '“'

/-- The test-line pattern
`([A-Za-z\s]+):\s*([0-9.]+)\s*([A-Za-z/%]*)\s*\(?([0-9.-]+\s*[-â€“]\s*[0-9.-]+)?\)?`. -/
def testRE : RE := seqL [
  .grp 1 (.plus nameClassP), .lit [':'], .star pyIsSpace,
  .grp 2 (.plus digitDotP), .star pyIsSpace,
  .grp 3 (.star unitClassP), .star pyIsSpace,
  .opt (.lit ['(']),
  .opt (.grp 4 (seqL [.plus rangeClassP, .star pyIsSpace, .cls dashClassP,
                      .star pyIsSpace, .plus rangeClassP])),
  .opt (.lit [')'])]

/-- The patient-name pattern `(Mr\.|Mrs\.|Ms\.)\s+([A-Za-z\s]+)`, with
group 0 for `group(0)`. -/
def nameRE : RE := .grp 0 (seqL [
  .grp 1 (.alt (.lit "Mr.".toList) (.alt (.lit "Mrs.".toList) (.lit "Ms.".toList))),
  .plus pyIsSpace, .grp 2 (.plus nameClassP)])

/-- The age pattern `(\d+)\s+[Yy]ears`. -/
def ageRE : RE := seqL [
  .grp 1 (.plus Char.isDigit), .plus pyIsSpace,
  .cls (fun c => c = 'Y' || c = 'y'), .lit "ears".toList]

/-- The gender pattern `(Male|Female)`. -/
def genderRE : RE := .grp 1 (.alt (.lit "Male".toList) (.lit "Female".toList))

/-- The name extracted from one line by the patient-info scan: guard
`'Mr.' in line or 'Mrs.' in line or 'Ms.' in line`, then
`re.search(...)`, then `group(0).strip()`. -/
def nameOfLine (cs : List Char) : Option String :=
  if listHasSub "Mr.".toList cs || listHasSub "Mrs.".toList cs ||
      listHasSub "Ms.".toList cs then
    match reSearch nameRE cs with
    | some caps =>
      match getCap caps 0 with
      | some m => some (String.mk (pyStripChars m))
      | none => none
    | none => none
  else none

/-- The age extracted from one line: guard on `Years`/`years`, then
`group(1) + " years"`. -/
def ageOfLine (cs : List Char) : Option String :=
  if listHasSub "Years".toList cs || listHasSub "years".toList cs then
    match reSearch ageRE cs with
    | some caps =>
      match getCap caps 1 with
      | some m => some (String.mk m ++ " years")
      | none => none
    | none => none
  else none

/-- The gender extracted from one line: guard on `Male`/`Female`, then
`group(1)`. -/
def genderOfLine (cs : List Char) : Option String :=
  if listHasSub "Male".toList cs || listHasSub "Female".toList cs then
    match reSearch genderRE cs with
    | some caps =>
      match getCap caps 1 with
      | some m => some (String.mk m)
      | none => none
    | none => none
  else none

/-- One iteration of the patient-info loop: each matching line
overwrites the field assigned so far. -/
def scanPatientLine (st : String × String × String) (cs : List Char) :
    String × String × String :=
  ((nameOfLine cs).getD st.1, (ageOfLine cs).getD st.2.1,
   (genderOfLine cs).getD st.2.2)

/-- One iteration of the test-extraction loop: the test dict built
from a line matching `testRE`, `none` when the line does not match. -/
def lineTest (cs : List Char) : Option JVal :=
  match reSearch testRE cs with
  | none => none
  | some caps =>
    some (.obj [
      ("test_name", .str (String.mk (pyStripChars ((getCap caps 1).getD [])))),
      ("value", .str (String.mk ((getCap caps 2).getD []))),
      ("unit", .str (String.mk ((getCap caps 3).getD []))),
      ("reference_range", .str (match getCap caps 4 with
        | some r => if r.isEmpty then "Not specified" else String.mk r
        | none => "Not specified")),
      ("status", .str "unknown")])

/-- Translation of `MedicalReportScanner.create_fallback_structure`. -/
def create_fallback_structure (text : String) : JVal :=
  let lines := splitLines text.toList
  let pt := (lines.take 20).foldl scanPatientLine
    ("Not specified", "Not specified", "Not specified")
  let potential_tests := lines.filterMap lineTest
  .obj [
    ("patient_info", .obj [
      ("name", .str pt.1),
      ("age", .str pt.2.1),
      ("gender", .str pt.2.2),
      ("report_date", .str "Not specified"),
      ("lab_number", .str "Not specified")]),
    ("test_categories", .arr (if potential_tests.isEmpty then [] else
      [.obj [("category", .str "General Tests"),
             ("tests", .arr (potential_tests.take 15))]])),
    ("abnormal_findings", .arr [.str
      "Unable to automatically detect abnormal findings - manual review recommended"]),
    ("critical_values", .arr [])]

/-!  `create_fallback_diagnosis` (app.py lines 480-500). -/

/-- Translation of `MedicalReportScanner.create_fallback_diagnosis`: the constant
fallback risk record. -/
def create_fallback_diagnosis : JVal :=
  .obj [
    ("risk_assessment", .obj [
      ("overall_risk", .str "moderate"),
      ("cardiovascular_risk", .str "moderate"),
      ("diabetes_risk", .str "moderate"),
      ("risk_factors", .arr [.str "Unable to complete automated risk assessment"])]),
    ("potential_conditions", .arr []),
    ("recommendations", .arr [.obj [
      ("category", .str "medical"),
      ("recommendation", .str "Consult with healthcare provider for proper interpretation"),
      ("priority", .str "high"),
      ("rationale", .str "Professional medical interpretation required")]]),
    ("follow_up_tests", .arr []),
    ("red_flags", .arr []),
    ("positive_findings", .arr []),
    ("summary", .str "Automated analysis could not be completed. Please consult with a qualified healthcare professional for proper interpretation of these comprehensive lab results.")]

/-!  The two retry orchestrators (app.py lines 181-259 and 397-472).
The generation service is an external oracle: each attempt either
raises or returns text.  `json.loads` is the Python standard library;
it is abstracted as a parameter `loads : String → Option JVal`
(`none` = `JSONDecodeError`), and every theorem below holds for every
such parser. -/

/-- Outcome of one `self.model.generate_content(...)` call. -/
inductive GenResult where
  | raises
  | returns (text : String)

/-- One attempt of `parse_medical_data`: normalize, parse, validate,
classify.  `none` means the attempt failed (exception or invalid
structure) and is retried or, on the last attempt, replaced by the
fallback. -/
def attemptParse (loads : String → Option JVal) (r : GenResult) : Option JVal :=
  match r with
  | .raises => none
  | .returns t =>
    match loads (clean_json_response t) with
    | none => none
    | some data =>
      match validate_parsed_data data with
      | .ok true =>
        match enhance_test_status data with
        | .ok d => some d
        | .error _ => none
      | _ => none

/-- Translation of `MedicalReportScanner.parse_medical_data` with `max_retries = 3`:
the oracle is consulted for attempts 0, 1, 2 only. -/
def parse_medical_data (loads : String → Option JVal)
    (oracle : Nat → GenResult) (text : String) : JVal :=
  match attemptParse loads (oracle 0) with
  | some d => d
  | none =>
    match attemptParse loads (oracle 1) with
    | some d => d
    | none =>
      match attemptParse loads (oracle 2) with
      | some d => d
      | none => create_fallback_structure text

/-- One attempt of `analyze_diagnosis` (no classification pass). -/
def attemptDiag (loads : String → Option JVal) (r : GenResult) : Option JVal :=
  match r with
  | .raises => none
  | .returns t =>
    match loads (clean_json_response t) with
    | none => none
    | some dg =>
      match validate_diagnosis_data dg with
      | .ok true => some dg
      | _ => none

/-- Translation of `MedicalReportScanner.analyze_diagnosis` with `max_retries = 2`. -/
def analyze_diagnosis (loads : String → Option JVal)
    (oracle : Nat → GenResult) : JVal :=
  match attemptDiag loads (oracle 0) with
  | some d => d
  | none =>
    match attemptDiag loads (oracle 1) with
    | some d => d
    | none => create_fallback_diagnosis

/-!  `extract_text_from_pdf` (app.py lines 61-109).  Each extraction
engine is modelled by its per-page results (`none` = page raised or
returned `None`, empty string = falsy page text; both are skipped). -/

/-- The page-accumulation loop shared by both engines:
`"\n--- Page {i+1} ---\n" + page_text + "\n"` for truthy pages. -/
def assemblePages (pages : List (Option String)) : String :=
  String.join (pages.enum.map (fun pr =>
    match pr.2 with
    | some t =>
      if t.isEmpty then "" else "\n--- Page " ++ toString (pr.1 + 1) ++ " ---\n" ++ t ++ "\n"
    | none => ""))

/-- Translation of `MedicalReportScanner.extract_text_from_pdf` given the per-page
results of pdfplumber and PyPDF2.  Returns the extracted text and
whether the PyPDF2 fallback was consulted.  Note the accumulator is
not reset before the fallback: PyPDF2 pages are appended to the
pdfplumber text. -/
def extract_text_from_pdf (plumberPages pypdfPages : List (Option String)) :
    String × Bool :=
  let t1 := assemblePages plumberPages
  if 50 < (pyStrip t1).length then (pyStrip t1, false)
  else
    let t2 := t1 ++ assemblePages pypdfPages
    if !(pyStrip t2).isEmpty then (pyStrip t2, true)
    else ("No text could be extracted from the PDF. The PDF might contain only images or be password-protected.", true)

/-- Modelled from the spec: "fewer than 50 non-whitespace characters
combined across pages" — the count of non-whitespace characters over
the pages of the first extractor, following the spec's words (the code
itself uses the stripped length of the assembled text instead). -/
def specNonWsCount (pages : List (Option String)) : Nat :=
  (pages.map (fun p =>
    match p with
    | some t => (t.toList.filter (fun c => !pyIsSpace c)).length
    | none => 0)).sum

/-!  Concrete fixtures used by witnesses and counterexamples. -/

/-- A parser stub: every text fails to parse. -/
def loadsNone : String → Option JVal := fun _ => none

/-- An oracle stub: every generation call raises. -/
def oracleRaises : Nat → GenResult := fun _ => .raises

/-- A test entry named `HbA1c` with the given string value. -/
def hbTest (v : String) : JVal :=
  .obj [("test_name", .str "HbA1c"), ("value", .str v), ("status", .str "unknown")]

/-- A test entry named `Total Cholesterol` with the given numeric value. -/
def tcTest (v : ℚ) : JVal :=
  .obj [("test_name", .str "Total Cholesterol"), ("value", .num v),
        ("status", .str "unknown")]

/-- A minimal lab record holding one test entry. -/
def oneTestRecord (t : JVal) : JVal :=
  .obj [
    ("patient_info", .obj [("name", .str "Not specified")]),
    ("test_categories", .arr [.obj [("category", .str "General Tests"),
                                    ("tests", .arr [t])]]),
    ("abnormal_findings", .arr []),
    ("critical_values", .arr [])]

/-- Field `k` of the `patient_info` block of a record. -/
def patientField (r : JVal) (k : String) : Option JVal :=
  match r with
  | .obj kvs =>
    match lookupKey kvs "patient_info" with
    | some (.obj p) => lookupKey p k
    | _ => none
  | _ => none

/-- Whether a test dict carries `status = "unknown"`. -/
def statusIsUnknown (t : JVal) : Bool :=
  match t with
  | .obj kvs =>
    match lookupKey kvs "status" with
    | some (.str s) => s = "unknown"
    | _ => false
  | _ => false

/-- The fence-extraction phase of `clean_json_response` (lines
158-168): content between the first `json`-tagged (else generic)
fence-open and the last fence-close, when the close lies after the
open. -/
def fenceStep (cs0 : List Char) : List Char :=
  let fence := "```".toList
  let fenceJson := "```json".toList
  if listHasSub fenceJson cs0 then
    match firstIdxOf fenceJson cs0, lastIdxOf fence cs0 with
    | some f, some e =>
      let s := f + 7
      if s < e then (cs0.drop s).take (e - s) else cs0
    | _, _ => cs0
  else if listHasSub fence cs0 then
    match firstIdxOf fence cs0, lastIdxOf fence cs0 with
    | some f, some e =>
      let s := f + 3
      if s < e then (cs0.drop s).take (e - s) else cs0
    | _, _ => cs0
  else cs0

/-- The brace-span phase of `clean_json_response` (lines 173-177):
when the text does not start with `{`, the span from the first `{` to
the last `}` (the greedy `re.search(r'\x7b.*\x7d', ..., re.DOTALL)`). -/
def braceStep (cs2 : List Char) : List Char :=
  if cs2.head? = some '{' then cs2
  else
    match firstIdxOf ['{'] cs2, lastIdxOf ['}'] cs2 with
    | some i, some j => if i < j then (cs2.drop i).take (j + 1 - i) else cs2
    | _, _ => cs2

/-!  Lemmas about the dict model. -/

theorem lookup_setKey_self (kvs : List (String × JVal)) (k : String) (v : JVal) :
    lookupKey (setKey kvs k v) k = some v := by
  unfold setKey
  split
  · rename_i h
    induction kvs with
    | nil => simp at h
    | cons p rest ih =>
      by_cases hp : p.1 = k
      · simp [hp, lookupKey]
      · simp only [List.any_cons, Bool.or_eq_true, decide_eq_true_eq] at h
        rcases h with h | h
        · exact absurd h hp
        · simpa [hp, lookupKey] using ih h
  · rename_i h
    induction kvs with
    | nil => simp [lookupKey]
    | cons p rest ih =>
      simp only [List.any_cons, Bool.or_eq_true, decide_eq_true_eq, not_or] at h
      simpa [lookupKey, h.1] using ih (by simpa using h.2)

theorem lookup_map_replace_ne (l : List (String × JVal)) (k k' : String)
    (v : JVal) (h : k' ≠ k) :
    lookupKey (l.map (fun p => if p.1 = k then (k, v) else p)) k' =
      lookupKey l k' := by
  induction l with
  | nil => rfl
  | cons p rest ih =>
    by_cases hp : p.1 = k
    · have hk : ¬ k = k' := fun hh => h hh.symm
      have hpk : ¬ p.1 = k' := by rw [hp]; exact hk
      simp [lookupKey, hp, hk, hpk, ih]
    · rw [List.map_cons, if_neg hp]
      by_cases hq : p.1 = k' <;> simp [lookupKey, hq, ih]

theorem lookup_append_single_ne (l : List (String × JVal)) (k k' : String)
    (v : JVal) (h : k' ≠ k) :
    lookupKey (l ++ [(k, v)]) k' = lookupKey l k' := by
  induction l with
  | nil =>
    have hk : ¬ k = k' := fun hh => h hh.symm
    simp [lookupKey, hk]
  | cons p rest ih =>
    by_cases hp : p.1 = k' <;> simp [lookupKey, hp, ih]

theorem lookup_setKey_ne (kvs : List (String × JVal)) (k k' : String) (v : JVal)
    (h : k' ≠ k) : lookupKey (setKey kvs k v) k' = lookupKey kvs k' := by
  unfold setKey
  split
  · exact lookup_map_replace_ne kvs k k' v h
  · exact lookup_append_single_ne kvs k k' v h

theorem any_key_iff_lookup (kvs : List (String × JVal)) (k : String) :
    (kvs.any (fun p => p.1 = k)) = true ↔ ∃ v, lookupKey kvs k = some v := by
  induction kvs with
  | nil => simp [lookupKey]
  | cons p rest ih =>
    by_cases hp : p.1 = k
    · simp [lookupKey, hp]
    · simp [lookupKey, hp, ih]

theorem any_setKey_self (l : List (String × JVal)) (k : String) (v : JVal) :
    (setKey l k v).any (fun p => p.1 = k) = true := by
  rw [any_key_iff_lookup]
  exact ⟨v, lookup_setKey_self l k v⟩

theorem any_setKey_mono (l : List (String × JVal)) (k k2 : String) (v2 : JVal)
    (h : l.any (fun p => p.1 = k) = true) :
    (setKey l k2 v2).any (fun p => p.1 = k) = true := by
  by_cases hk : k = k2
  · subst hk; exact any_setKey_self l k v2
  · rw [any_key_iff_lookup] at h ⊢
    rwa [lookup_setKey_ne _ _ _ _ hk]

theorem allEq_setKey_self (l : List (String × JVal)) (k : String) (v : JVal) :
    ∀ p ∈ setKey l k v, p.1 = k → p.2 = v := by
  intro p hp hk
  unfold setKey at hp
  split at hp
  · rcases List.mem_map.mp hp with ⟨q, _, hq⟩
    by_cases hq1 : q.1 = k
    · rw [if_pos hq1] at hq; rw [← hq]
    · rw [if_neg hq1] at hq; rw [← hq] at hk; exact absurd hk hq1
  · rcases List.mem_append.mp hp with hm | hm
    · rename_i hany
      exfalso
      apply hany
      rw [List.any_eq_true]
      exact ⟨p, hm, by simp [hk]⟩
    · have hpv : p = (k, v) := by simpa using hm
      rw [hpv]

theorem allEq_setKey_other (l : List (String × JVal)) (k k2 : String) (v v2 : JVal)
    (hne : k ≠ k2) (h : ∀ p ∈ l, p.1 = k → p.2 = v) :
    ∀ p ∈ setKey l k2 v2, p.1 = k → p.2 = v := by
  intro p hp hk
  unfold setKey at hp
  split at hp
  · rcases List.mem_map.mp hp with ⟨q, hql, hq⟩
    by_cases hq1 : q.1 = k2
    · rw [if_pos hq1] at hq
      rw [← hq] at hk
      have hk2 : k2 = k := by simpa using hk
      exact absurd hk2.symm hne
    · rw [if_neg hq1] at hq
      rw [← hq]
      exact h q hql (by rw [← hq] at hk; exact hk)
  · rcases List.mem_append.mp hp with hm | hm
    · exact h p hm hk
    · have hpv : p = (k2, v2) := by simpa using hm
      rw [hpv] at hk
      have hk2 : k2 = k := by simpa using hk
      exact absurd hk2.symm hne

theorem map_replace_eq_self (l : List (String × JVal)) (k : String) (v : JVal)
    (h2 : ∀ p ∈ l, p.1 = k → p.2 = v) :
    l.map (fun p => if p.1 = k then (k, v) else p) = l := by
  induction l with
  | nil => rfl
  | cons p rest ih =>
    simp only [List.map_cons]
    congr 1
    · obtain ⟨p1, p2⟩ := p
      by_cases hp : p1 = k
      · have hv : p2 = v := h2 (p1, p2) (by simp) hp
        simp [hp, hv]
      · simp [hp]
    · exact ih (fun q hq hk => h2 q (by simp [hq]) hk)

theorem setKey_eq_self (l : List (String × JVal)) (k : String) (v : JVal)
    (h1 : l.any (fun p => p.1 = k) = true)
    (h2 : ∀ p ∈ l, p.1 = k → p.2 = v) : setKey l k v = l := by
  unfold setKey
  rw [if_pos h1]
  exact map_replace_eq_self l k v h2

theorem setKey_setKey_same (l : List (String × JVal)) (k : String) (v : JVal) :
    setKey (setKey l k v) k v = setKey l k v :=
  setKey_eq_self _ _ _ (any_setKey_self l k v) (allEq_setKey_self l k v)

theorem setKey2_idem (l : List (String × JVal)) (a b : String) (x y : JVal)
    (hab : a ≠ b) :
    setKey (setKey (setKey (setKey l a x) b y) a x) b y =
      setKey (setKey l a x) b y := by
  have h1 : setKey (setKey (setKey l a x) b y) a x = setKey (setKey l a x) b y :=
    setKey_eq_self _ _ _
      (any_setKey_mono _ _ _ _ (any_setKey_self l a x))
      (allEq_setKey_other _ _ _ _ _ hab (allEq_setKey_self l a x))
  rw [h1, setKey_setKey_same]

/-!  Lemmas about the status classifier. -/

theorem lookup_applyRules (kvs : List (String × JVal)) (n : String) (v : ℚ)
    (k : String) (h1 : k ≠ "status") (h2 : k ≠ "clinical_significance") :
    lookupKey (applyRules kvs n v) k = lookupKey kvs k := by
  unfold applyRules
  split_ifs <;>
    simp [lookup_setKey_ne _ _ _ _ h1, lookup_setKey_ne _ _ _ _ h2]

theorem applyRules_idem (kvs : List (String × JVal)) (n : String) (v : ℚ) :
    applyRules (applyRules kvs n v) n v = applyRules kvs n v := by
  have hne : ("status" : String) ≠ "clinical_significance" := by decide
  unfold applyRules
  split_ifs <;>
    first
      | rfl
      | exact setKey2_idem _ _ _ _ _ hne
      | exact setKey_setKey_same _ _ _

theorem enhanceTest_idem (t u : JVal) (h : enhanceTest t = .ok u) :
    enhanceTest u = .ok u := by
  match t with
  | .null | .bool _ | .num _ | .str _ | .arr _ => simp [enhanceTest] at h
  | .obj kvs =>
    rw [enhanceTest] at h
    match hn : (lookupKey kvs "test_name").getD (.str "") with
    | .null | .bool _ | .num _ | .arr _ | .obj _ => rw [hn] at h; simp at h
    | .str nm =>
      rw [hn] at h
      simp only [] at h
      match he : extractNum ((lookupKey kvs "value").getD (.str "")) with
      | none =>
        rw [he] at h
        simp only [Except.ok.injEq] at h
        rw [← h]
        simp only [enhanceTest, hn, he]
      | some v =>
        rw [he] at h
        simp only [Except.ok.injEq] at h
        have hln : lookupKey (applyRules kvs (pyLower nm) v) "test_name" =
            lookupKey kvs "test_name" :=
          lookup_applyRules _ _ _ _ (by decide) (by decide)
        have hlv : lookupKey (applyRules kvs (pyLower nm) v) "value" =
            lookupKey kvs "value" :=
          lookup_applyRules _ _ _ _ (by decide) (by decide)
        rw [← h]
        simp only [enhanceTest, hln, hn, hlv, he, applyRules_idem]

theorem mapExcept_idem (f : JVal → Except Unit JVal)
    (hf : ∀ x y, f x = .ok y → f y = .ok y) :
    ∀ xs ys, mapExcept f xs = .ok ys → mapExcept f ys = .ok ys := by
  intro xs
  induction xs with
  | nil =>
    intro ys h
    simp only [mapExcept, Except.ok.injEq] at h
    rw [← h]
    rfl
  | cons x xs ih =>
    intro ys h
    rw [mapExcept] at h
    match hx : f x with
    | .error e => rw [hx] at h; simp at h
    | .ok y =>
      rw [hx] at h
      simp only [] at h
      match hxs : mapExcept f xs with
      | .error e => rw [hxs] at h; simp at h
      | .ok ys' =>
        rw [hxs] at h
        simp only [Except.ok.injEq] at h
        rw [← h, mapExcept, hf x y hx, ih ys' hxs]

theorem enhanceCategory_idem (c u : JVal) (h : enhanceCategory c = .ok u) :
    enhanceCategory u = .ok u := by
  match c with
  | .null | .bool _ | .num _ | .str _ | .arr _ => simp [enhanceCategory] at h
  | .obj kvs =>
    rw [enhanceCategory] at h
    match hl : lookupKey kvs "tests" with
    | none =>
      rw [hl] at h
      simp only [Except.ok.injEq] at h
      rw [← h]
      simp only [enhanceCategory, hl]
    | some (.arr xs) =>
      rw [hl] at h
      simp only [] at h
      match hm : mapExcept enhanceTest xs with
      | .error e => rw [hm] at h; simp at h
      | .ok xs2 =>
        rw [hm] at h
        simp only [Except.ok.injEq] at h
        have hm2 : mapExcept enhanceTest xs2 = .ok xs2 :=
          mapExcept_idem enhanceTest enhanceTest_idem xs xs2 hm
        rw [← h]
        simp only [enhanceCategory, lookup_setKey_self, hm2, setKey_setKey_same]
    | some (.str s) =>
      rw [hl] at h
      simp only [] at h
      by_cases hs : s.isEmpty
      · rw [if_pos hs] at h
        simp only [Except.ok.injEq] at h
        rw [← h]
        simp only [enhanceCategory, hl, if_pos hs]
      · rw [if_neg hs] at h; simp at h
    | some (.obj kvs2) =>
      rw [hl] at h
      simp only [] at h
      by_cases hs : kvs2.isEmpty
      · rw [if_pos hs] at h
        simp only [Except.ok.injEq] at h
        rw [← h]
        simp only [enhanceCategory, hl, if_pos hs]
      · rw [if_neg hs] at h; simp at h
    | some .null => rw [hl] at h; simp at h
    | some (.bool b) => rw [hl] at h; simp at h
    | some (.num q) => rw [hl] at h; simp at h

theorem enhance_record_idem (d u : JVal) (h : enhance_test_status d = .ok u) :
    enhance_test_status u = .ok u := by
  match d with
  | .null | .bool _ | .num _ | .str _ | .arr _ => simp [enhance_test_status] at h
  | .obj kvs =>
    rw [enhance_test_status] at h
    match hl : lookupKey kvs "test_categories" with
    | none =>
      rw [hl] at h
      simp only [Except.ok.injEq] at h
      rw [← h]
      simp only [enhance_test_status, hl]
    | some (.arr cats) =>
      rw [hl] at h
      simp only [] at h
      match hm : mapExcept enhanceCategory cats with
      | .error e => rw [hm] at h; simp at h
      | .ok cats2 =>
        rw [hm] at h
        simp only [Except.ok.injEq] at h
        have hm2 : mapExcept enhanceCategory cats2 = .ok cats2 :=
          mapExcept_idem enhanceCategory enhanceCategory_idem cats cats2 hm
        rw [← h]
        simp only [enhance_test_status, lookup_setKey_self, hm2, setKey_setKey_same]
    | some (.str s) =>
      rw [hl] at h
      simp only [] at h
      by_cases hs : s.isEmpty
      · rw [if_pos hs] at h
        simp only [Except.ok.injEq] at h
        rw [← h]
        simp only [enhance_test_status, hl, if_pos hs]
      · rw [if_neg hs] at h; simp at h
    | some (.obj kvs2) =>
      rw [hl] at h
      simp only [] at h
      by_cases hs : kvs2.isEmpty
      · rw [if_pos hs] at h
        simp only [Except.ok.injEq] at h
        rw [← h]
        simp only [enhance_test_status, hl, if_pos hs]
      · rw [if_neg hs] at h; simp at h
    | some .null => rw [hl] at h; simp at h
    | some (.bool b) => rw [hl] at h; simp at h
    | some (.num q) => rw [hl] at h; simp at h

/-!  Lemmas about the validators. -/

theorem pyIndex_ok_elim (d : JVal) (k : String) (v : JVal)
    (h : pyIndex d k = .ok v) :
    ∃ kvs, d = .obj kvs ∧ lookupKey kvs k = some v := by
  match d with
  | .obj kvs =>
    refine ⟨kvs, rfl, ?_⟩
    rw [pyIndex] at h
    match hl : lookupKey kvs k with
    | some w =>
      rw [hl] at h
      simp only [Except.ok.injEq] at h
      rw [h]
    | none => rw [hl] at h; simp at h
  | .null | .bool _ | .num _ | .str _ | .arr _ => simp [pyIndex] at h

theorem validate_ok_intro (kvs : List (String × JVal))
    (pi : List (String × JVal)) (tc ab : List JVal)
    (h1 : lookupKey kvs "patient_info" = some (.obj pi))
    (h2 : lookupKey kvs "test_categories" = some (.arr tc))
    (h3 : lookupKey kvs "abnormal_findings" = some (.arr ab)) :
    validate_parsed_data (.obj kvs) = .ok true := by
  have a1 : (kvs.any fun p => p.1 = "patient_info") = true :=
    (any_key_iff_lookup _ _).mpr ⟨_, h1⟩
  have a2 : (kvs.any fun p => p.1 = "test_categories") = true :=
    (any_key_iff_lookup _ _).mpr ⟨_, h2⟩
  have a3 : (kvs.any fun p => p.1 = "abnormal_findings") = true :=
    (any_key_iff_lookup _ _).mpr ⟨_, h3⟩
  simp [validate_parsed_data, requiredLabKeys, pyAll, pyContains, a1, a2, a3,
    pyIndex, h1, h2, h3, isDict, isList]

theorem validate_ok_elim (d : JVal) (h : validate_parsed_data d = .ok true) :
    ∃ kvs pi tc ab, d = .obj kvs ∧
      lookupKey kvs "patient_info" = some (.obj pi) ∧
      lookupKey kvs "test_categories" = some (.arr tc) ∧
      lookupKey kvs "abnormal_findings" = some (.arr ab) := by
  rw [validate_parsed_data] at h
  match hall : pyAll d requiredLabKeys with
  | .error e => rw [hall] at h; simp at h
  | .ok false => rw [hall] at h; simp at h
  | .ok true =>
    rw [hall] at h
    simp only [] at h
    match hpi : pyIndex d "patient_info" with
    | .error e => rw [hpi] at h; simp at h
    | .ok p =>
      rw [hpi] at h
      match p with
      | .null | .bool _ | .num _ | .str _ | .arr _ => simp [isDict] at h
      | .obj pi =>
        simp only [isDict, Bool.not_true, Bool.false_eq_true, if_false] at h
        match htc : pyIndex d "test_categories" with
        | .error e => rw [htc] at h; simp at h
        | .ok tc =>
          rw [htc] at h
          match tc with
          | .null | .bool _ | .num _ | .str _ | .obj _ => simp [isList] at h
          | .arr tcs =>
            simp only [isList, Bool.not_true, Bool.false_eq_true, if_false] at h
            match hab : pyIndex d "abnormal_findings" with
            | .error e => rw [hab] at h; simp at h
            | .ok ab =>
              rw [hab] at h
              match ab with
              | .null | .bool _ | .num _ | .str _ | .obj _ => simp [isList] at h
              | .arr abs2 =>
                obtain ⟨kvs, rfl, hl1⟩ := pyIndex_ok_elim d _ _ hpi
                obtain ⟨kvs2, heq, hl2⟩ := pyIndex_ok_elim _ _ _ htc
                obtain ⟨kvs3, heq2, hl3⟩ := pyIndex_ok_elim _ _ _ hab
                rw [JVal.obj.injEq] at heq heq2
                refine ⟨kvs, pi, tcs, abs2, rfl, hl1, ?_, ?_⟩
                · rw [heq]; exact hl2
                · rw [heq2]; exact hl3

theorem enhance_preserves_valid (d d' : JVal)
    (hv : validate_parsed_data d = .ok true)
    (he : enhance_test_status d = .ok d') :
    validate_parsed_data d' = .ok true := by
  obtain ⟨kvs, pi, tc, ab, rfl, h1, h2, h3⟩ := validate_ok_elim d hv
  rw [enhance_test_status, h2] at he
  simp only [] at he
  match hm : mapExcept enhanceCategory tc with
  | .error e => rw [hm] at he; simp at he
  | .ok cats2 =>
    rw [hm] at he
    simp only [Except.ok.injEq] at he
    rw [← he]
    apply validate_ok_intro _ pi cats2 ab
    · rw [lookup_setKey_ne _ _ _ _ (by decide)]; exact h1
    · exact lookup_setKey_self _ _ _
    · rw [lookup_setKey_ne _ _ _ _ (by decide)]; exact h3

theorem fallback_valid (t : String) :
    validate_parsed_data (create_fallback_structure t) = .ok true := by
  apply validate_ok_intro <;> rfl

/-!  Lemmas about the heuristic extractor. -/

theorem lineTest_status (cs : List Char) (t : JVal) (h : lineTest cs = some t) :
    statusIsUnknown t = true := by
  rw [lineTest] at h
  match hr : reSearch testRE cs with
  | none => rw [hr] at h; simp at h
  | some caps =>
    rw [hr] at h
    simp only [Option.some.injEq] at h
    rw [← h]
    rfl

theorem filterMap_lineTest_all (ls : List (List Char)) :
    ((ls.filterMap lineTest).all statusIsUnknown) = true := by
  induction ls with
  | nil => rfl
  | cons c rest ih =>
    rw [List.filterMap_cons]
    cases hr : lineTest c with
    | none => simpa using ih
    | some t =>
      rw [List.all_cons, lineTest_status c t hr, ih]
      rfl

theorem all_take (l : List JVal) (n : Nat)
    (h : (l.all statusIsUnknown) = true) :
    ((l.take n).all statusIsUnknown) = true := by
  rw [List.all_eq_true] at h ⊢
  exact fun x hx => h x (List.mem_of_mem_take hx)

theorem foldl_overwrite (g : List Char → Option String)
    (ls : List (List Char)) (init : String) :
    ls.foldl (fun acc cs => (g cs).getD acc) init =
      ((ls.filterMap g).getLast?).getD init := by
  induction ls generalizing init with
  | nil => rfl
  | cons c rest ih =>
    rw [List.foldl_cons, List.filterMap_cons]
    cases hg : g c with
    | none => simp only [Option.getD_none, ih]
    | some s =>
      rw [Option.getD_some, ih]
      cases hrest : rest.filterMap g with
      | nil => rfl
      | cons a as =>
        rw [List.getLast?_cons_cons]
        cases hgl : (a :: as).getLast? with
        | none => simp [List.getLast?_eq_none_iff] at hgl
        | some b => rfl

theorem foldl_scan_fst (ls : List (List Char)) (st : String × String × String) :
    (ls.foldl scanPatientLine st).1 =
      ls.foldl (fun acc cs => (nameOfLine cs).getD acc) st.1 := by
  induction ls generalizing st with
  | nil => rfl
  | cons c rest ih => rw [List.foldl_cons, List.foldl_cons, ih]; rfl

theorem foldl_scan_snd (ls : List (List Char)) (st : String × String × String) :
    (ls.foldl scanPatientLine st).2.1 =
      ls.foldl (fun acc cs => (ageOfLine cs).getD acc) st.2.1 := by
  induction ls generalizing st with
  | nil => rfl
  | cons c rest ih => rw [List.foldl_cons, List.foldl_cons, ih]; rfl

theorem foldl_scan_thd (ls : List (List Char)) (st : String × String × String) :
    (ls.foldl scanPatientLine st).2.2 =
      ls.foldl (fun acc cs => (genderOfLine cs).getD acc) st.2.2 := by
  induction ls generalizing st with
  | nil => rfl
  | cons c rest ih => rw [List.foldl_cons, List.foldl_cons, ih]; rfl

/-!  Lemmas about the orchestrators. -/

theorem attemptParse_ok (loads : String → Option JVal) (r : GenResult) (d : JVal)
    (h : attemptParse loads r = some d) :
    validate_parsed_data d = .ok true ∧
      ∃ data, validate_parsed_data data = .ok true ∧
        enhance_test_status data = .ok d := by
  match r with
  | .raises => simp [attemptParse] at h
  | .returns t =>
    rw [attemptParse] at h
    match hl : loads (clean_json_response t) with
    | none => rw [hl] at h; simp at h
    | some data =>
      rw [hl] at h
      simp only [] at h
      match hv : validate_parsed_data data with
      | .ok true =>
        rw [hv] at h
        simp only [] at h
        match he : enhance_test_status data with
        | .ok d2 =>
          rw [he] at h
          simp only [Option.some.injEq] at h
          rw [← h]
          exact ⟨enhance_preserves_valid data d2 hv he, data, hv, he⟩
        | .error e => rw [he] at h; simp at h
      | .ok false => rw [hv] at h; simp at h
      | .error e => rw [hv] at h; simp at h

theorem attemptDiag_ok (loads : String → Option JVal) (r : GenResult) (d : JVal)
    (h : attemptDiag loads r = some d) :
    validate_diagnosis_data d = .ok true := by
  match r with
  | .raises => simp [attemptDiag] at h
  | .returns t =>
    rw [attemptDiag] at h
    match hl : loads (clean_json_response t) with
    | none => rw [hl] at h; simp at h
    | some dg =>
      rw [hl] at h
      simp only [] at h
      match hv : validate_diagnosis_data dg with
      | .ok true =>
        rw [hv] at h
        simp only [Option.some.injEq] at h
        rw [← h]
        exact hv
      | .ok false => rw [hv] at h; simp at h
      | .error e => rw [hv] at h; simp at h

/-!  The claims. -/

/-- C1.  For every input text and every behavior of the generation
service (raising, unparsable text, or JSON failing validation), the
extraction orchestrator consults the oracle only on attempts 0, 1, 2
(at most 3 attempts) and returns a record passing the lab-record
validator: either a validator-passing AI record after status
classification, or the heuristic fallback record; and the heuristic
fallback record passes the lab-record validator for every input
text. -/
theorem c1_extraction_orchestrator_always_valid
    (loads : String → Option JVal) (oracle : Nat → GenResult) (text : String) :
    validate_parsed_data (parse_medical_data loads oracle text) = .ok true
    ∧ ((∃ data, validate_parsed_data data = .ok true ∧
          enhance_test_status data = .ok (parse_medical_data loads oracle text))
        ∨ parse_medical_data loads oracle text = create_fallback_structure text)
    ∧ (∀ oracle2 : Nat → GenResult, oracle 0 = oracle2 0 → oracle 1 = oracle2 1 →
        oracle 2 = oracle2 2 →
        parse_medical_data loads oracle text = parse_medical_data loads oracle2 text)
    ∧ validate_parsed_data (create_fallback_structure text) = .ok true := by
  have h01 : validate_parsed_data (parse_medical_data loads oracle text) = .ok true
      ∧ ((∃ data, validate_parsed_data data = .ok true ∧
            enhance_test_status data = .ok (parse_medical_data loads oracle text))
          ∨ parse_medical_data loads oracle text = create_fallback_structure text) := by
    rw [parse_medical_data]
    cases h0 : attemptParse loads (oracle 0) with
    | some d =>
      obtain ⟨hv, data, hvd, he⟩ := attemptParse_ok loads (oracle 0) d h0
      exact ⟨hv, Or.inl ⟨data, hvd, he⟩⟩
    | none =>
      cases h1 : attemptParse loads (oracle 1) with
      | some d =>
        obtain ⟨hv, data, hvd, he⟩ := attemptParse_ok loads (oracle 1) d h1
        exact ⟨hv, Or.inl ⟨data, hvd, he⟩⟩
      | none =>
        cases h2 : attemptParse loads (oracle 2) with
        | some d =>
          obtain ⟨hv, data, hvd, he⟩ := attemptParse_ok loads (oracle 2) d h2
          exact ⟨hv, Or.inl ⟨data, hvd, he⟩⟩
        | none => exact ⟨fallback_valid text, Or.inr rfl⟩
  refine ⟨h01.1, h01.2, ?_, fallback_valid text⟩
  intro oracle2 e0 e1 e2
  rw [parse_medical_data, parse_medical_data, e0, e1, e2]

/-- Witness for C1 at a concrete parser, oracle and text. -/
theorem c1_extraction_orchestrator_always_valid_witness :
    validate_parsed_data (parse_medical_data loadsNone oracleRaises "") = .ok true
    ∧ parse_medical_data loadsNone oracleRaises "" =
        parse_medical_data loadsNone oracleRaises "" :=
  ⟨(c1_extraction_orchestrator_always_valid loadsNone oracleRaises "").1,
   (c1_extraction_orchestrator_always_valid loadsNone oracleRaises "").2.2.1
     oracleRaises rfl rfl rfl⟩

/-- C2.  For every lab record and every behavior of the generation
service, the diagnosis orchestrator consults the oracle only on
attempts 0, 1 (at most 2 attempts) and returns a record passing the
risk-record validator; on exhaustion it returns the constant fallback
record with all three risks `moderate`, exactly one high-priority
recommendation urging professional consultation, empty
`potential_conditions`, `follow_up_tests` and `red_flags`, and the
fixed disclaimer summary; and that constant passes the risk-record
validator. -/
theorem c2_diagnosis_orchestrator_always_valid
    (loads : String → Option JVal) (oracle : Nat → GenResult) :
    validate_diagnosis_data (analyze_diagnosis loads oracle) = .ok true
    ∧ ((∃ dg, validate_diagnosis_data dg = .ok true ∧
          analyze_diagnosis loads oracle = dg)
        ∨ analyze_diagnosis loads oracle = create_fallback_diagnosis)
    ∧ (∀ oracle2 : Nat → GenResult, oracle 0 = oracle2 0 → oracle 1 = oracle2 1 →
        analyze_diagnosis loads oracle = analyze_diagnosis loads oracle2)
    ∧ validate_diagnosis_data create_fallback_diagnosis = .ok true
    ∧ (∃ ra, pyIndex create_fallback_diagnosis "risk_assessment" = .ok (.obj ra)
        ∧ lookupKey ra "overall_risk" = some (.str "moderate")
        ∧ lookupKey ra "cardiovascular_risk" = some (.str "moderate")
        ∧ lookupKey ra "diabetes_risk" = some (.str "moderate"))
    ∧ pyIndex create_fallback_diagnosis "potential_conditions" = .ok (.arr [])
    ∧ pyIndex create_fallback_diagnosis "follow_up_tests" = .ok (.arr [])
    ∧ pyIndex create_fallback_diagnosis "red_flags" = .ok (.arr [])
    ∧ pyIndex create_fallback_diagnosis "recommendations" = .ok (.arr [.obj [
        ("category", .str "medical"),
        ("recommendation",
          .str "Consult with healthcare provider for proper interpretation"),
        ("priority", .str "high"),
        ("rationale", .str "Professional medical interpretation required")]])
    ∧ pyIndex create_fallback_diagnosis "summary" = .ok (.str
        "Automated analysis could not be completed. Please consult with a qualified healthcare professional for proper interpretation of these comprehensive lab results.") := by
  have h01 : validate_diagnosis_data (analyze_diagnosis loads oracle) = .ok true
      ∧ ((∃ dg, validate_diagnosis_data dg = .ok true ∧
            analyze_diagnosis loads oracle = dg)
          ∨ analyze_diagnosis loads oracle = create_fallback_diagnosis) := by
    rw [analyze_diagnosis]
    cases h0 : attemptDiag loads (oracle 0) with
    | some d => exact ⟨attemptDiag_ok loads (oracle 0) d h0,
        Or.inl ⟨d, attemptDiag_ok loads (oracle 0) d h0, rfl⟩⟩
    | none =>
      cases h1 : attemptDiag loads (oracle 1) with
      | some d => exact ⟨attemptDiag_ok loads (oracle 1) d h1,
          Or.inl ⟨d, attemptDiag_ok loads (oracle 1) d h1, rfl⟩⟩
      | none => exact ⟨rfl, Or.inr rfl⟩
  refine ⟨h01.1, h01.2, ?_, rfl, ⟨_, rfl, rfl, rfl, rfl⟩, rfl, rfl, rfl, rfl, rfl⟩
  intro oracle2 e0 e1
  rw [analyze_diagnosis, analyze_diagnosis, e0, e1]

/-- Witness for C2 at a concrete parser and oracle. -/
theorem c2_diagnosis_orchestrator_always_valid_witness :
    validate_diagnosis_data (analyze_diagnosis loadsNone oracleRaises) = .ok true
    ∧ analyze_diagnosis loadsNone oracleRaises =
        analyze_diagnosis loadsNone oracleRaises :=
  ⟨(c2_diagnosis_orchestrator_always_valid loadsNone oracleRaises).1,
   (c2_diagnosis_orchestrator_always_valid loadsNone oracleRaises).2.2.1
     oracleRaises rfl rfl⟩

/-- C3.  For every test dict from which a numeric value `v` is
obtained, the keyword rules apply in fixed precedence with first match
winning: an HbA1c-family name gives high/borderline/normal at 6.5 and
5.7 with the diabetes-suggestive and prediabetic-range notes; else a
fasting-glucose name at 126 and 100; else a total-cholesterol name at
240 and 200; and in particular `HbA1c` at `"6.8%"`/`"5.9"`/`"5.0"` and
`Total Cholesterol` at 250/210/150 classify as stated in the spec. -/
theorem c3_status_classifier_rules :
    (∀ (kvs : List (String × JVal)) (nameL : String) (v : ℚ),
      (hasSub nameL "hba1c" || hasSub nameL "glycosylated hemoglobin") = true →
        ((6.5 ≤ v →
            lookupKey (applyRules kvs nameL v) "status" = some (.str "high") ∧
            lookupKey (applyRules kvs nameL v) "clinical_significance" =
              some (.str "Suggests diabetes")) ∧
         (5.7 ≤ v → v < 6.5 →
            lookupKey (applyRules kvs nameL v) "status" = some (.str "borderline") ∧
            lookupKey (applyRules kvs nameL v) "clinical_significance" =
              some (.str "Prediabetic range")) ∧
         (v < 5.7 →
            lookupKey (applyRules kvs nameL v) "status" = some (.str "normal"))))
    ∧ (∀ (kvs : List (String × JVal)) (nameL : String) (v : ℚ),
      (hasSub nameL "hba1c" || hasSub nameL "glycosylated hemoglobin") = false →
      (hasSub nameL "glucose" && hasSub nameL "fasting") = true →
        ((126 ≤ v →
            lookupKey (applyRules kvs nameL v) "status" = some (.str "high") ∧
            lookupKey (applyRules kvs nameL v) "clinical_significance" =
              some (.str "Diabetic range")) ∧
         (100 ≤ v → v < 126 →
            lookupKey (applyRules kvs nameL v) "status" = some (.str "borderline") ∧
            lookupKey (applyRules kvs nameL v) "clinical_significance" =
              some (.str "Impaired fasting glucose")) ∧
         (v < 100 →
            lookupKey (applyRules kvs nameL v) "status" = some (.str "normal"))))
    ∧ (∀ (kvs : List (String × JVal)) (nameL : String) (v : ℚ),
      (hasSub nameL "hba1c" || hasSub nameL "glycosylated hemoglobin") = false →
      (hasSub nameL "glucose" && hasSub nameL "fasting") = false →
      (hasSub nameL "cholesterol" && hasSub nameL "total") = true →
        ((240 ≤ v →
            lookupKey (applyRules kvs nameL v) "status" = some (.str "high") ∧
            lookupKey (applyRules kvs nameL v) "clinical_significance" =
              some (.str "High cardiovascular risk")) ∧
         (200 ≤ v → v < 240 →
            lookupKey (applyRules kvs nameL v) "status" = some (.str "borderline") ∧
            lookupKey (applyRules kvs nameL v) "clinical_significance" =
              some (.str "Borderline high")) ∧
         (v < 200 →
            lookupKey (applyRules kvs nameL v) "status" = some (.str "normal"))))
    ∧ enhanceTest (hbTest "6.8%") = .ok (.obj [("test_name", .str "HbA1c"),
        ("value", .str "6.8%"), ("status", .str "high"),
        ("clinical_significance", .str "Suggests diabetes")])
    ∧ enhanceTest (hbTest "5.9") = .ok (.obj [("test_name", .str "HbA1c"),
        ("value", .str "5.9"), ("status", .str "borderline"),
        ("clinical_significance", .str "Prediabetic range")])
    ∧ enhanceTest (hbTest "5.0") = .ok (.obj [("test_name", .str "HbA1c"),
        ("value", .str "5.0"), ("status", .str "normal")])
    ∧ enhanceTest (tcTest 250) = .ok (.obj [("test_name", .str "Total Cholesterol"),
        ("value", .num 250), ("status", .str "high"),
        ("clinical_significance", .str "High cardiovascular risk")])
    ∧ enhanceTest (tcTest 210) = .ok (.obj [("test_name", .str "Total Cholesterol"),
        ("value", .num 210), ("status", .str "borderline"),
        ("clinical_significance", .str "Borderline high")])
    ∧ enhanceTest (tcTest 150) = .ok (.obj [("test_name", .str "Total Cholesterol"),
        ("value", .num 150), ("status", .str "normal")]) := by
  have hs : ("status" : String) ≠ "clinical_significance" := by decide
  refine ⟨?_, ?_, ?_, by with_unfolding_all rfl, by with_unfolding_all rfl,
    by with_unfolding_all rfl, by with_unfolding_all rfl, by with_unfolding_all rfl,
    by with_unfolding_all rfl⟩
  · intro kvs nameL v h1
    refine ⟨fun hv => ?_, fun hv1 hv2 => ?_, fun hv => ?_⟩
    · rw [applyRules, if_pos h1, if_pos hv]
      exact ⟨by rw [lookup_setKey_ne _ _ _ _ hs, lookup_setKey_self],
        lookup_setKey_self _ _ _⟩
    · rw [applyRules, if_pos h1, if_neg (not_le.mpr hv2), if_pos hv1]
      exact ⟨by rw [lookup_setKey_ne _ _ _ _ hs, lookup_setKey_self],
        lookup_setKey_self _ _ _⟩
    · rw [applyRules, if_pos h1, if_neg (not_le.mpr (lt_trans hv (by norm_num))),
        if_neg (not_le.mpr hv)]
      exact lookup_setKey_self _ _ _
  · intro kvs nameL v h1 h2
    refine ⟨fun hv => ?_, fun hv1 hv2 => ?_, fun hv => ?_⟩
    · rw [applyRules, if_neg (by simp [h1]), if_pos h2, if_pos hv]
      exact ⟨by rw [lookup_setKey_ne _ _ _ _ hs, lookup_setKey_self],
        lookup_setKey_self _ _ _⟩
    · rw [applyRules, if_neg (by simp [h1]), if_pos h2,
        if_neg (not_le.mpr hv2), if_pos hv1]
      exact ⟨by rw [lookup_setKey_ne _ _ _ _ hs, lookup_setKey_self],
        lookup_setKey_self _ _ _⟩
    · rw [applyRules, if_neg (by simp [h1]), if_pos h2,
        if_neg (not_le.mpr (lt_trans hv (by norm_num))), if_neg (not_le.mpr hv)]
      exact lookup_setKey_self _ _ _
  · intro kvs nameL v h1 h2 h3
    refine ⟨fun hv => ?_, fun hv1 hv2 => ?_, fun hv => ?_⟩
    · rw [applyRules, if_neg (by simp [h1]), if_neg (by simp [h2]),
        if_pos h3, if_pos hv]
      exact ⟨by rw [lookup_setKey_ne _ _ _ _ hs, lookup_setKey_self],
        lookup_setKey_self _ _ _⟩
    · rw [applyRules, if_neg (by simp [h1]), if_neg (by simp [h2]), if_pos h3,
        if_neg (not_le.mpr hv2), if_pos hv1]
      exact ⟨by rw [lookup_setKey_ne _ _ _ _ hs, lookup_setKey_self],
        lookup_setKey_self _ _ _⟩
    · rw [applyRules, if_neg (by simp [h1]), if_neg (by simp [h2]), if_pos h3,
        if_neg (not_le.mpr (lt_trans hv (by norm_num))), if_neg (not_le.mpr hv)]
      exact lookup_setKey_self _ _ _

/-- Witness for C3 at concrete names and values. -/
theorem c3_status_classifier_rules_witness :
    lookupKey (applyRules [] "hba1c" 7) "status" = some (.str "high")
    ∧ lookupKey (applyRules [] "fasting glucose" 110) "status" =
        some (.str "borderline")
    ∧ lookupKey (applyRules [] "total cholesterol" 150) "status" =
        some (.str "normal") :=
  ⟨((c3_status_classifier_rules.1 [] "hba1c" 7
      (by with_unfolding_all rfl)).1 (by norm_num)).1,
   (((c3_status_classifier_rules.2.1 [] "fasting glucose" 110
      (by with_unfolding_all rfl) (by with_unfolding_all rfl)).2.1
      (by norm_num) (by norm_num))).1,
   ((c3_status_classifier_rules.2.2.1 [] "total cholesterol" 150
      (by with_unfolding_all rfl) (by with_unfolding_all rfl)
      (by with_unfolding_all rfl)).2.2 (by norm_num))⟩

/-- C4 counterexample.  On a `json`-tagged fence whose content does
not start with `{`, the normalizer does not return the content between
the fences (trimmed or not): the brace-span step runs after fence
extraction and strips the leading noise. -/
theorem c4_normalizer_counterexample :
    clean_json_response "```json\nnoise \x7b\"a\":1\x7d\n```" = "\x7b\"a\":1\x7d"
    ∧ "\x7b\"a\":1\x7d" ≠ "\nnoise \x7b\"a\":1\x7d\n"
    ∧ "\x7b\"a\":1\x7d" ≠ "noise \x7b\"a\":1\x7d" :=
  ⟨by with_unfolding_all rfl, by decide, by decide⟩

/-- C4 (amended).  The normalizer first extracts fence content
(`json`-tagged preferred, else generic, between the first fence-open
and the last fence-close when the latter lies after the former), then
trims, and then — also on fence-extracted content — replaces a result
not starting with `{` by the span from its first `{` to its last `}`
when one exists; the two concrete examples of the spec hold. -/
theorem c4_normalizer_amended :
    clean_json_response "```json\n\x7b\"a\":1\x7d\n```" = "\x7b\"a\":1\x7d"
    ∧ clean_json_response "noise \x7b\"a\":1\x7d trailing" = "\x7b\"a\":1\x7d"
    ∧ ∀ t : String, clean_json_response t =
        String.mk (braceStep (pyStripChars (fenceStep t.toList))) :=
  ⟨by with_unfolding_all rfl, by with_unfolding_all rfl, fun t => rfl⟩

/-- C5.  For every input text the heuristic extractor emits the
fixed manual-review note as the single abnormal finding, an empty
critical-value list, and either zero categories (no line matched) or
exactly one `General Tests` category holding the per-line matches in
order, capped at 15, each with status `unknown`; and the glucose
example line yields the stated entry. -/
theorem c5_heuristic_extractor_shape (text : String) :
    pyIndex (create_fallback_structure text) "abnormal_findings" = .ok (.arr
      [.str "Unable to automatically detect abnormal findings - manual review recommended"])
    ∧ pyIndex (create_fallback_structure text) "critical_values" = .ok (.arr [])
    ∧ pyIndex (create_fallback_structure text) "test_categories" =
        .ok (.arr (if ((splitLines text.toList).filterMap lineTest).isEmpty then []
          else [.obj [("category", .str "General Tests"),
                ("tests", .arr (((splitLines text.toList).filterMap lineTest).take 15))]]))
    ∧ (((splitLines text.toList).filterMap lineTest).take 15).length ≤ 15
    ∧ ((((splitLines text.toList).filterMap lineTest).take 15).all statusIsUnknown)
        = true
    ∧ lineTest "Glucose: 95 mg/dL (70-100)".toList = some (.obj [
        ("test_name", .str "Glucose"), ("value", .str "95"),
        ("unit", .str "mg/dL"), ("reference_range", .str "70-100"),
        ("status", .str "unknown")]) := by
  refine ⟨rfl, rfl, rfl, ?_, ?_, by with_unfolding_all rfl⟩
  · rw [List.length_take]
    exact min_le_left _ _
  · exact all_take _ 15 (filterMap_lineTest_all _)

/-- C6 counterexample.  The first line of `"Mr. A\nMr. B"` matches
the name pattern and yields `Mr. A`, yet the extractor reports
`Mr. B`: the last matching line wins, not the first. -/
theorem c6_patient_scan_counterexample :
    nameOfLine "Mr. A".toList = some "Mr. A"
    ∧ patientField (create_fallback_structure "Mr. A\nMr. B") "name" =
        some (.str "Mr. B")
    ∧ ("Mr. B" : String) ≠ "Mr. A" :=
  ⟨by with_unfolding_all rfl, by with_unfolding_all rfl, by decide⟩

/-- C6 (amended).  For every input text the heuristic extractor
derives patient info from the first 20 lines with the stated patterns
and guards, and for each field the LAST matching line wins (each
matching line overwrites the field); a field with no matching line
keeps the `Not specified` sentinel; the spec's concrete example
holds. -/
theorem c6_patient_scan_last_match (text : String) :
    patientField (create_fallback_structure text) "name" = some (.str
      ((((splitLines text.toList).take 20).filterMap nameOfLine).getLast?.getD
        "Not specified"))
    ∧ patientField (create_fallback_structure text) "age" = some (.str
      ((((splitLines text.toList).take 20).filterMap ageOfLine).getLast?.getD
        "Not specified"))
    ∧ patientField (create_fallback_structure text) "gender" = some (.str
      ((((splitLines text.toList).take 20).filterMap genderOfLine).getLast?.getD
        "Not specified"))
    ∧ patientField
        (create_fallback_structure "Mr. John Smith\n45 Years\nMale\nGlucose: 95 mg/dL (70-100)")
        "name" = some (.str "Mr. John Smith")
    ∧ patientField
        (create_fallback_structure "Mr. John Smith\n45 Years\nMale\nGlucose: 95 mg/dL (70-100)")
        "age" = some (.str "45 years")
    ∧ patientField
        (create_fallback_structure "Mr. John Smith\n45 Years\nMale\nGlucose: 95 mg/dL (70-100)")
        "gender" = some (.str "Male")
    ∧ pyIndex
        (create_fallback_structure "Mr. John Smith\n45 Years\nMale\nGlucose: 95 mg/dL (70-100)")
        "test_categories" = .ok (.arr [.obj [("category", .str "General Tests"),
          ("tests", .arr [.obj [("test_name", .str "Glucose"), ("value", .str "95"),
            ("unit", .str "mg/dL"), ("reference_range", .str "70-100"),
            ("status", .str "unknown")]])]]) := by
  refine ⟨?_, ?_, ?_, by with_unfolding_all rfl, by with_unfolding_all rfl,
    by with_unfolding_all rfl, by with_unfolding_all rfl⟩
  · have h : patientField (create_fallback_structure text) "name" = some (.str
        (((splitLines text.toList).take 20).foldl scanPatientLine
          ("Not specified", "Not specified", "Not specified")).1) := rfl
    rw [h, foldl_scan_fst, foldl_overwrite]
  · have h : patientField (create_fallback_structure text) "age" = some (.str
        (((splitLines text.toList).take 20).foldl scanPatientLine
          ("Not specified", "Not specified", "Not specified")).2.1) := rfl
    rw [h, foldl_scan_snd, foldl_overwrite]
  · have h : patientField (create_fallback_structure text) "gender" = some (.str
        (((splitLines text.toList).take 20).foldl scanPatientLine
          ("Not specified", "Not specified", "Not specified")).2.2) := rfl
    rw [h, foldl_scan_thd, foldl_overwrite]

theorem pyAll_obj_isOk (kvs : List (String × JVal)) :
    ∀ ks : List String, ∃ b, pyAll (.obj kvs) ks = .ok b := by
  intro ks
  induction ks with
  | nil => exact ⟨true, rfl⟩
  | cons k ks ih =>
    cases hb : (kvs.any fun p => p.1 = k) with
    | false => exact ⟨false, by simp [pyAll, pyContains, hb]⟩
    | true =>
      obtain ⟨b, hback⟩ := ih
      exact ⟨b, by simp [pyAll, pyContains, hb, hback]⟩

theorem pyAll_true_elim (d : JVal) (ks : List String)
    (h : pyAll d ks = .ok true) :
    ∀ k ∈ ks, pyContains d k = .ok true := by
  induction ks with
  | nil => intro k hk; simp at hk
  | cons k2 ks ih =>
    intro k hk
    rw [pyAll] at h
    match hc : pyContains d k2 with
    | .error e => rw [hc] at h; simp at h
    | .ok false => rw [hc] at h; simp at h
    | .ok true =>
      rw [hc] at h
      simp only [] at h
      rcases List.mem_cons.mp hk with rfl | hk2
      · exact hc
      · exact ih h k hk2

theorem pyAll_obj_true_iff (kvs : List (String × JVal)) (ks : List String) :
    pyAll (.obj kvs) ks = .ok true ↔
      ∀ k ∈ ks, (kvs.any fun p => p.1 = k) = true := by
  constructor
  · intro h k hk
    have := pyAll_true_elim _ _ h k hk
    simpa [pyContains] using this
  · intro h
    induction ks with
    | nil => rfl
    | cons k2 ks ih =>
      have hk2 : (kvs.any fun p => p.1 = k2) = true := h k2 (by simp)
      have hrest := ih (fun k hk => h k (by simp [hk]))
      simp [pyAll, pyContains, hk2, hrest]

theorem validate_obj_isOk (kvs : List (String × JVal)) :
    ∃ b, validate_parsed_data (.obj kvs) = .ok b := by
  obtain ⟨b, hall⟩ := pyAll_obj_isOk kvs requiredLabKeys
  cases b with
  | false => exact ⟨false, by rw [validate_parsed_data, hall]⟩
  | true =>
    have hkeys := (pyAll_obj_true_iff kvs requiredLabKeys).mp hall
    obtain ⟨v1, hv1⟩ := (any_key_iff_lookup kvs "patient_info").mp
      (hkeys "patient_info" (by simp [requiredLabKeys]))
    obtain ⟨v2, hv2⟩ := (any_key_iff_lookup kvs "test_categories").mp
      (hkeys "test_categories" (by simp [requiredLabKeys]))
    obtain ⟨v3, hv3⟩ := (any_key_iff_lookup kvs "abnormal_findings").mp
      (hkeys "abnormal_findings" (by simp [requiredLabKeys]))
    rw [validate_parsed_data, hall]
    simp only [pyIndex, hv1, hv2, hv3]
    by_cases h1 : isDict v1 = true
    · by_cases h2 : isList v2 = true
      · by_cases h3 : isList v3 = true
        · exact ⟨true, by simp [h1, h2, h3]⟩
        · rw [Bool.not_eq_true] at h3
          exact ⟨false, by simp [h1, h2, h3]⟩
      · rw [Bool.not_eq_true] at h2
        exact ⟨false, by simp [h1, h2]⟩
    · rw [Bool.not_eq_true] at h1
      exact ⟨false, by simp [h1]⟩

/-- C7.  The lab-record validator returns `true` exactly on
mappings binding `patient_info` to a mapping and `test_categories` and
`abnormal_findings` to sequences, with no deeper checks; the
risk-record validator on a mapping returns `true` exactly when all six
required keys are present; and both return a boolean (never raise) on
every mapping. -/
theorem c7_validators_characterization :
    (∀ d : JVal, validate_parsed_data d = .ok true ↔
      ∃ kvs pi tc ab, d = .obj kvs ∧
        lookupKey kvs "patient_info" = some (.obj pi) ∧
        lookupKey kvs "test_categories" = some (.arr tc) ∧
        lookupKey kvs "abnormal_findings" = some (.arr ab))
    ∧ (∀ kvs : List (String × JVal), ∃ b, validate_parsed_data (.obj kvs) = .ok b)
    ∧ (∀ kvs : List (String × JVal), ∃ b, validate_diagnosis_data (.obj kvs) = .ok b)
    ∧ (∀ kvs : List (String × JVal), validate_diagnosis_data (.obj kvs) = .ok true ↔
        ∀ k ∈ requiredDiagKeys, (kvs.any fun p => p.1 = k) = true) := by
  refine ⟨?_, validate_obj_isOk, ?_, ?_⟩
  · intro d
    constructor
    · exact validate_ok_elim d
    · rintro ⟨kvs, pi, tc, ab, rfl, h1, h2, h3⟩
      exact validate_ok_intro kvs pi tc ab h1 h2 h3
  · intro kvs
    exact pyAll_obj_isOk kvs requiredDiagKeys
  · intro kvs
    exact pyAll_obj_true_iff kvs requiredDiagKeys

/-- Witness for C7 at concrete records. -/
theorem c7_validators_characterization_witness :
    validate_parsed_data (.obj [("patient_info", .obj []),
      ("test_categories", .arr []), ("abnormal_findings", .arr [])]) = .ok true
    ∧ validate_diagnosis_data (.obj [("risk_assessment", .null),
        ("potential_conditions", .null), ("recommendations", .null),
        ("follow_up_tests", .null), ("red_flags", .null), ("summary", .null)])
        = .ok true :=
  ⟨(c7_validators_characterization.1 _).mpr ⟨_, _, _, _, rfl, rfl, rfl, rfl⟩,
   (c7_validators_characterization.2.2.2 _).mpr (by decide)⟩

/-- C8.  The status classifier is idempotent: whenever it maps a
record `d` to `u` (without raising), applying it to `u` returns `u`
again. -/
theorem c8_status_classifier_idempotent (d u : JVal)
    (h : enhance_test_status d = .ok u) : enhance_test_status u = .ok u :=
  enhance_record_idem d u h

/-- Witness for C8 at a concrete record. -/
theorem c8_status_classifier_idempotent_witness :
    enhance_test_status (oneTestRecord (.obj [("test_name", .str "HbA1c"),
      ("value", .str "6.8%"), ("status", .str "high"),
      ("clinical_significance", .str "Suggests diabetes")]))
    = .ok (oneTestRecord (.obj [("test_name", .str "HbA1c"),
      ("value", .str "6.8%"), ("status", .str "high"),
      ("clinical_significance", .str "Suggests diabetes")])) :=
  c8_status_classifier_idempotent (oneTestRecord (hbTest "6.8%")) _
    (by with_unfolding_all rfl)

/-- C9 counterexample.  A single pdfplumber page of 40
non-whitespace characters: fewer than 50 non-whitespace characters
combined across pages, yet the PyPDF2 fallback is NOT consulted — the
code compares the stripped length of the assembled text (page header
included) with 50, not the non-whitespace count. -/
theorem c9_pdf_fallback_counterexample :
    specNonWsCount [some "aaaaaaaaaaaaaaaaaaaaaaaaaaaaaaaaaaaaaaaa"] = 40
    ∧ (40 : Nat) < 50
    ∧ (extract_text_from_pdf [some "aaaaaaaaaaaaaaaaaaaaaaaaaaaaaaaaaaaaaaaa"]
        [some "zz"]).2 = false :=
  ⟨by with_unfolding_all rfl, by decide, by with_unfolding_all rfl⟩

/-- C9 (amended).  The PDF front end tries pdfplumber first and
consults the PyPDF2 fallback exactly when the assembled pdfplumber
text (with its per-page header lines), stripped of leading and
trailing whitespace, has at most 50 characters — internal whitespace
and headers counted; when it has more than 50 characters, that
stripped text is returned and the fallback is not consulted. -/
theorem c9_pdf_fallback_condition (p1 p2 : List (Option String)) :
    ((extract_text_from_pdf p1 p2).2 = true ↔
      (pyStrip (assemblePages p1)).length ≤ 50)
    ∧ (50 < (pyStrip (assemblePages p1)).length →
        extract_text_from_pdf p1 p2 = (pyStrip (assemblePages p1), false)) := by
  rw [extract_text_from_pdf]
  by_cases h : 50 < (pyStrip (assemblePages p1)).length
  · rw [if_pos h]
    refine ⟨⟨fun hh => by simp at hh, fun hh => absurd h (not_lt.mpr hh)⟩,
      fun _ => rfl⟩
  · rw [if_neg h]
    refine ⟨⟨fun _ => not_lt.mp h, fun _ => ?_⟩, fun hh => absurd hh h⟩
    by_cases he : (pyStrip (assemblePages p1 ++ assemblePages p2)).isEmpty = true
    · simp only [he]
      rfl
    · rw [Bool.not_eq_true] at he
      simp only [he]
      rfl

/-- Witness for C9 at a concrete page list long enough to skip the
fallback. -/
theorem c9_pdf_fallback_condition_witness :
    extract_text_from_pdf
      [some "aaaaaaaaaaaaaaaaaaaaaaaaaaaaaaaaaaaaaaaaaaaaaaaaaaaaaaaaaaaa"] [] =
      (pyStrip (assemblePages
        [some "aaaaaaaaaaaaaaaaaaaaaaaaaaaaaaaaaaaaaaaaaaaaaaaaaaaaaaaaaaaa"]),
       false) :=
  (c9_pdf_fallback_condition
    [some "aaaaaaaaaaaaaaaaaaaaaaaaaaaaaaaaaaaaaaaaaaaaaaaaaaaaaaaaaaaa"] []).2
    (by decide)

/-- C10 counterexample.  On an entry whose `test_name` is the
number 5 and whose `value` is the unparsable string `"."`, the
classifier raises (`.get('test_name', '').lower()` runs outside the
`try` block), so it is not total on all entries with string values. -/
theorem c10_classifier_totality_counterexample :
    enhance_test_status (.obj [("test_categories", .arr [.obj [("tests",
      .arr [.obj [("test_name", .num 5), ("value", .str ".")]])]])]) =
      .error () := by
  with_unfolding_all rfl

/-- C10 (amended).  Provided an entry's `test_name` (after the
empty-string default) is a string, the classifier never raises on the
entry, and whenever numeric extraction of the value fails — no
digit-and-dot token, or a token `float` rejects such as `"."` or
`"1.2.3"` — the entry is returned entirely unchanged. -/
theorem c10_classifier_total_and_nondestructive :
    (∀ kvs : List (String × JVal),
      (∃ nm, (lookupKey kvs "test_name").getD (.str "") = .str nm) →
      (∃ r, enhanceTest (.obj kvs) = .ok r)
      ∧ (extractNum ((lookupKey kvs "value").getD (.str "")) = none →
          enhanceTest (.obj kvs) = .ok (.obj kvs)))
    ∧ extractNum (.str ".") = none
    ∧ extractNum (.str "1.2.3") = none
    ∧ extractNum (.str "no digits at all") = none := by
  refine ⟨?_, by with_unfolding_all rfl, by with_unfolding_all rfl,
    by with_unfolding_all rfl⟩
  intro kvs ⟨nm, hnm⟩
  constructor
  · rw [enhanceTest, hnm]
    dsimp only
    cases he : extractNum ((lookupKey kvs "value").getD (.str "")) with
    | none => exact ⟨.obj kvs, rfl⟩
    | some v => exact ⟨.obj (applyRules kvs (pyLower nm) v), rfl⟩
  · intro he
    rw [enhanceTest, hnm]
    dsimp only
    rw [he]

/-- Witness for C10 at a concrete unparsable value. -/
theorem c10_classifier_total_and_nondestructive_witness :
    enhanceTest (.obj [("test_name", .str "HbA1c"), ("value", .str "1.2.3")]) =
      .ok (.obj [("test_name", .str "HbA1c"), ("value", .str "1.2.3")]) :=
  ((c10_classifier_total_and_nondestructive.1
    [("test_name", .str "HbA1c"), ("value", .str "1.2.3")] ⟨"HbA1c", rfl⟩).2
    (by with_unfolding_all rfl))
